import Mathlib

/-!
# Verification of the body-parser bounded streaming body reader

Shallow embedding of the TypeScript sources:
* `src/unnamed/part_001` — the `bytes` size-unit parser (`parse`);
* `src/unnamed/part_000` — the `raw-body` bounded stream accumulator
  (`readStream` with its `done`/event-handler state machine);
* `src/src/lib/read.ts` — the orchestrator (`read`, `contentstream`).

JavaScript numbers are modelled exactly (rationals / integers plus an
explicit NaN marker) rather than as IEEE doubles; all inputs exercised
here are far below the precision where the two diverge.
-/

namespace BodyParser

/-! ## JavaScript number values

`JsNum` models the JavaScript numbers that flow through `bytes.parse`:
NaN, plus finite values represented exactly as rationals. -/

inductive JsNum where
  | nan : JsNum
  | finite : ℚ → JsNum
  deriving DecidableEq, Repr

/-- A JavaScript value as seen by `bytes.parse` (`val` may be a number,
a string, or anything else). -/
inductive JsVal where
  | num : JsNum → JsVal
  | str : String → JsVal
  | other : JsVal
  deriving DecidableEq, Repr

/-- Result of `bytes.parse`: `null`, or a JavaScript number. -/
inductive ParseResult where
  | null : ParseResult
  | num : JsNum → ParseResult
  deriving DecidableEq, Repr

/-- JavaScript `String.prototype.toLowerCase`, as used on the ASCII
header/charset tokens of this codebase: lowercase each character. -/
def jsToLower (s : String) : String := String.mk (s.data.map Char.toLower)

/-! ## The `bytes` module (src/unnamed/part_001) -/

/-- `map` from part_001: unit multipliers
`{b: 1, kb: 1 << 10, mb: 1 << 20, gb: 1 << 30, tb: (1 << 30) * 1024}`.
Lookup of any other key is `undefined` (here `none`). -/
def unitMap (u : String) : Option ℚ :=
  if u = "b" then some 1
  else if u = "kb" then some 1024
  else if u = "mb" then some 1048576
  else if u = "gb" then some 1073741824
  else if u = "tb" then some 1099511627776
  else none

/-- Decimal digit test (regex `\d`). -/
def isDigitChar (c : Char) : Bool := '0' ≤ c ∧ c ≤ '9'

/-- Numeric value of a list of decimal digit characters read left to right. -/
def digitsVal (ds : List Char) : ℕ :=
  ds.foldl (fun acc c => 10 * acc + (c.toNat - '0'.toNat)) 0

/-- Split a maximal run of decimal digits off the front of a char list. -/
def takeDigits (cs : List Char) : List Char × List Char :=
  match cs with
  | [] => ([], [])
  | c :: rest =>
    if isDigitChar c then
      let (ds, tail) := takeDigits rest
      (c :: ds, tail)
    else ([], c :: rest)

/-- After the numeric part, the regex `parseRegExp` allows ` *` (ASCII
spaces) and then requires the unit `(kb|mb|gb|tb)` case-insensitively,
anchored at the end of the string. Returns the lowercased unit. -/
def matchUnitSuffix (cs : List Char) : Option String :=
  match cs with
  | ' ' :: rest => matchUnitSuffix rest
  | [c1, c2] =>
    let u := String.mk [c1.toLower, c2.toLower]
    if u = "kb" ∨ u = "mb" ∨ u = "gb" ∨ u = "tb" then some u else none
  | _ => none

/-- `parseRegExp = /^((-|\+)?(\d+(?:\.\d+)?)) *(kb|mb|gb|tb)$/i` from
part_001, as a matcher. On success returns the exact numeric value of
capture group 1 (as `parseFloat` reads it: optional sign, integer
digits, optional fraction) together with `results[4].toLowerCase()`. -/
def parseRegExpExec (s : String) : Option (ℚ × String) :=
  let cs := s.data
  -- optional sign `(-|\+)?`
  let (sign, afterSign) : ℚ × List Char :=
    match cs with
    | '-' :: rest => (-1, rest)
    | '+' :: rest => (1, rest)
    | _ => (1, cs)
  -- `\d+`
  let (intDs, afterInt) := takeDigits afterSign
  if intDs = [] then none
  else
    -- `(?:\.\d+)?`
    let (frac, afterNum) : ℚ × List Char :=
      match afterInt with
      | '.' :: rest =>
        let (fracDs, tail) := takeDigits rest
        if fracDs = [] then (0, '.' :: rest)
        else ((digitsVal fracDs : ℚ) / ((10 : ℚ) ^ fracDs.length), tail)
      | _ => (0, afterInt)
    match matchUnitSuffix afterNum with
    | some u => some (sign * ((digitsVal intDs : ℚ) + frac), u)
    | none =>
      -- the fraction part is optional: if consuming `.\d+` prevented the
      -- suffix from matching, the regex engine would backtrack and retry
      -- without it; `.` is not a space or unit char, so that retry also
      -- fails and the whole match fails.  (When no `.` was consumed the
      -- two attempts coincide.)
      none

/-- JavaScript `parseInt(s, 10)`: skip leading whitespace, optional
sign, then a maximal run of decimal digits; NaN when no digits. -/
def jsParseInt (s : String) : JsNum :=
  let cs := s.data.dropWhile fun c =>
    c = ' ' ∨ c = '\t' ∨ c = '\n' ∨ c = '\r' ∨ c = '\x0b' ∨ c = '\x0c'
  let (sign, afterSign) : ℤ × List Char :=
    match cs with
    | '-' :: rest => (-1, rest)
    | '+' :: rest => (1, rest)
    | _ => (1, cs)
  let (ds, _) := takeDigits afterSign
  if ds = [] then JsNum.nan
  else JsNum.finite ((sign * (digitsVal ds : ℤ) : ℤ) : ℚ)

/-- `Math.floor` on a JavaScript number: NaN propagates. -/
def mathFloor (x : JsNum) : JsNum :=
  match x with
  | JsNum.nan => JsNum.nan
  | JsNum.finite q => JsNum.finite (⌊q⌋ : ℚ)

/-- JavaScript multiplication `map[unit] * floatValue`, where the left
factor may be `undefined` (lookup miss → NaN result). -/
def jsMul (m : Option ℚ) (x : JsNum) : JsNum :=
  match m, x with
  | some a, JsNum.finite b => JsNum.finite (a * b)
  | _, _ => JsNum.nan

/-- `parse` from part_001 lines 121–146.  Numbers that are not NaN are
returned unchanged; non-strings give `null`; otherwise the string is
matched against `parseRegExp`, falling back to `parseInt(val, 10)` with
unit `"b"`, and the result is `Math.floor(map[unit] * floatValue)`.
Note the source has no `isNaN(floatValue)` guard, so an unparseable
string yields NaN, not `null`. -/
def parse (val : JsVal) : ParseResult :=
  match val with
  | JsVal.num n =>
    match n with
    | JsNum.nan => ParseResult.null  -- fails `!isNaN`, then `typeof val !== "string"`
    | JsNum.finite q => ParseResult.num (JsNum.finite q)
  | JsVal.other => ParseResult.null
  | JsVal.str s =>
    let (floatValue, unit) : JsNum × String :=
      match parseRegExpExec s with
      | none => (jsParseInt s, "b")
      | some (q, u) => (JsNum.finite q, u)
    ParseResult.num (mathFloor (jsMul (unitMap unit) floatValue))

/-! ## The `raw-body` accumulator (src/unnamed/part_000)

`readStream` registers handlers on the source stream and drives a
little state machine: a `complete` flag, a `received` byte counter, a
buffer (decoded string when a decoder is in use, array of raw chunks
otherwise), and a one-shot `done` that defers through
`process.nextTick` while the synchronous setup section is running.

We embed it as an explicit state record plus a `step` function over
stream events.  The incremental charset decoder (iconv-lite) is an
external collaborator; it is modelled as an arbitrary stateful
`DecoderImpl`, matching the interface the source uses
(`decoder.write(chunk)` and `decoder.end()`). -/

/-- A data chunk: an immutable byte sequence. -/
abbrev Chunk := List ℕ

/-- Interface of an iconv-lite incremental decoder, as used by the
source: `write` consumes a chunk and yields output text, `end` flushes
any pending partial sequence (`decoder.end() || ""` — we fold the
`|| ""` coercion of a falsy result into the returned string). -/
structure DecoderImpl (σ : Type) where
  init : σ
  write : σ → Chunk → σ × String
  flushEnd : σ → String

/-- The final payload handed to the callback: decoded text when a
decoder was in use, `Buffer.concat(buffer)` otherwise. -/
inductive Payload where
  | text : String → Payload
  | bytes : Chunk → Payload
  deriving DecidableEq, Repr

/-- The classified errors `readStream` can produce.  Each constructor
corresponds to one `createHttpError` call site in part_000, carrying
the status code (first argument) and the context fields passed there.
`ioError` is a raw stream error passed through `onEnd(err)`
unclassified, identified here by an opaque tag. -/
inductive ReadErr where
  /-- 413 `entity.too.large` fast path: `{expected: length, length, limit}`. -/
  | entityTooLargeFast : (expected : ℤ) → (limit : ℤ) → ReadErr
  /-- 500 `stream.encoding.set`: developer error. -/
  | streamEncodingSet : ReadErr
  /-- 415 `encoding.unsupported` from `getDecoder`: `{encoding}`. -/
  | encodingUnsupported : (encoding : String) → ReadErr
  /-- 413 `entity.too.large` mid-read: `{limit, received}`. -/
  | entityTooLarge : (limit : ℤ) → (received : ℕ) → ReadErr
  /-- 400 `request.aborted`: `{expected: length, length, received}`. -/
  | requestAborted : (expected : Option ℤ) → (received : ℕ) → ReadErr
  /-- 400 `request.size.invalid`: `{expected: length, length, received}`. -/
  | sizeMismatch : (expected : ℤ) → (received : ℕ) → ReadErr
  /-- Raw stream error forwarded by `done(err)`. -/
  | ioError : ℕ → ReadErr
  deriving DecidableEq, Repr

/-- Status code of each error, i.e. the first argument of the
`createHttpError` call that builds it in part_000.  (`createHttpError`
itself lives in `lib/utils`, outside the provided sources; per its
call convention and the 400-class/415-class language of the spec it tags
the error with this status.)  A raw stream error carries no status. -/
def ReadErr.status : ReadErr → Option ℕ
  | ReadErr.entityTooLargeFast _ _ => some 413
  | ReadErr.streamEncodingSet => some 500
  | ReadErr.encodingUnsupported _ => some 415
  | ReadErr.entityTooLarge _ _ => some 413
  | ReadErr.requestAborted _ _ => some 400
  | ReadErr.sizeMismatch _ _ => some 400
  | ReadErr.ioError _ => none

/-- The `type` field of each classified error, as passed to
`createHttpError` in part_000. -/
def ReadErr.errType : ReadErr → Option String
  | ReadErr.entityTooLargeFast _ _ => some "entity.too.large"
  | ReadErr.streamEncodingSet => some "stream.encoding.set"
  | ReadErr.encodingUnsupported _ => some "encoding.unsupported"
  | ReadErr.entityTooLarge _ _ => some "entity.too.large"
  | ReadErr.requestAborted _ _ => some "request.aborted"
  | ReadErr.sizeMismatch _ _ => some "request.size.invalid"
  | ReadErr.ioError _ => none

/-- What `done` delivers to the callback: `done(err)` or
`done(null, payload)`. -/
inductive Outcome where
  | ok : Payload → Outcome
  | err : ReadErr → Outcome
  deriving DecidableEq, Repr

/-- `buffer` in `readStream`: `""`-growing string with decoder state
when a decoder is in use, an array of chunks otherwise; `cleanup` sets
it to `null`. -/
inductive Buf (σ : Type) where
  | text : σ → String → Buf σ
  | raw : List Chunk → Buf σ
  | nulled : Buf σ

/-- Run-time state of one `readStream` invocation.

* `complete`, `sync`, `received`, `buffer` are the local variables of
  the source with the same names;
* `attached` — whether the five stream listeners are registered
  (`cleanup` removes all of them at once);
* `halted` — whether `halt(stream)` (unpipe + pause) has run;
* `pending` — callbacks scheduled with `process.nextTick` but not yet
  run;
* `delivered` — the invocations of the user callback, in order; each
  entry records whether listeners were still attached at the moment
  the callback fired. -/
structure RState (σ : Type) where
  complete : Bool
  sync : Bool
  received : ℕ
  buffer : Buf σ
  attached : Bool
  halted : Bool
  pending : List Outcome
  delivered : List (Bool × Outcome)

/-- `cleanup` from part_000: null the buffer and remove every listener. -/
def cleanup {σ : Type} (s : RState σ) : RState σ :=
  { s with buffer := Buf.nulled, attached := false }

/-- `invokeCallback` inside `done`: run `cleanup`, halt the stream when
the first argument is an error, then call the callback. -/
def invokeCallback {σ : Type} (s : RState σ) (out : Outcome) : RState σ :=
  let s1 := cleanup s
  let s2 :=
    match out with
    | Outcome.err _ => { s1 with halted := true }
    | Outcome.ok _ => s1
  { s2 with delivered := s2.delivered ++ [(s2.attached, out)] }

/-- `done` from part_000: mark `complete`, then either schedule
`invokeCallback` on the next tick (still inside the synchronous
section) or invoke it immediately. -/
def doneWith {σ : Type} (s : RState σ) (out : Outcome) : RState σ :=
  let s1 := { s with complete := true }
  if s1.sync then { s1 with pending := s1.pending ++ [out] }
  else invokeCallback s1 out

/-- `onAborted`. -/
def onAborted {σ : Type} (length : Option ℤ) (s : RState σ) : RState σ :=
  if s.complete then s
  else doneWith s (Outcome.err (ReadErr.requestAborted length s.received))

/-- `onData`: count the chunk, fail when over the limit, otherwise
feed the decoder or push the raw chunk. -/
def onData {σ : Type} (dec : DecoderImpl σ) (limit : Option ℤ)
    (chunk : Chunk) (s : RState σ) : RState σ :=
  if s.complete then s
  else
    let s1 := { s with received := s.received + chunk.length }
    let append : RState σ :=
      match s1.buffer with
      | Buf.text st acc =>
        let (st2, out) := dec.write st chunk
        { s1 with buffer := Buf.text st2 (acc ++ out) }
      | Buf.raw chunks => { s1 with buffer := Buf.raw (chunks ++ [chunk]) }
      | Buf.nulled => s1  -- unreachable: cleanup always detaches first
    match limit with
    | some l =>
      if (s1.received : ℤ) > l then
        doneWith s1 (Outcome.err (ReadErr.entityTooLarge l s1.received))
      else append
    | none => append

/-- `onEnd(err)`: forward a stream error, check the declared length,
otherwise flush the decoder (or concat the chunks) and succeed. -/
def onEnd {σ : Type} (dec : DecoderImpl σ) (length : Option ℤ)
    (errArg : Option ℕ) (s : RState σ) : RState σ :=
  if s.complete then s
  else
    match errArg with
    | some e => doneWith s (Outcome.err (ReadErr.ioError e))
    | none =>
      let succeed : RState σ :=
        match s.buffer with
        | Buf.text st acc =>
          doneWith s (Outcome.ok (Payload.text (acc ++ dec.flushEnd st)))
        | Buf.raw chunks =>
          doneWith s (Outcome.ok (Payload.bytes chunks.flatten))
        | Buf.nulled =>
          doneWith s (Outcome.ok (Payload.bytes []))  -- unreachable
      match length with
      | some n =>
        if (s.received : ℤ) ≠ n then
          doneWith s (Outcome.err (ReadErr.sizeMismatch n s.received))
        else succeed
      | none => succeed

/-- `getDecoder` from part_000: a falsy encoding (absent or `""`)
means no decoder; otherwise the name is looked up in the iconv-lite
registry (an external collaborator, modelled as a predicate) and an
unrecognized name raises the 415 `encoding.unsupported` error.
Returns whether a decoder is in use. -/
def getDecoder (registry : String → Bool) (encoding : Option String) :
    Except ReadErr Bool :=
  match encoding with
  | none => Except.ok false
  | some e =>
    if e = "" then Except.ok false
    else if registry e then Except.ok true
    else Except.error (ReadErr.encodingUnsupported e)

/-- Arguments of one `readStream` call: the normalized encoding, the
declared length and limit (both already converted to numbers or null
by `getRawBody`), and whether the stream object arrives with a string
encoding already set on it (the `_readableState` developer-error
check). -/
structure Cfg where
  encoding : Option String
  length : Option ℤ
  limit : Option ℤ
  streamEncodingSet : Bool

/-- The freshly initialized local state at entry to `readStream`. -/
def initState (σ : Type) : RState σ :=
  { complete := false, sync := true, received := 0,
    buffer := Buf.raw [], attached := false, halted := false,
    pending := [], delivered := [] }

/-- Continuation of the synchronous section of `readStream` after the
length/limit fast-path check: the stream-encoding assertion, the
decoder lookup, buffer initialization (`decoder ? "" : []`), listener
attachment, and clearing of the `sync` flag. -/
def runSetupRest {σ : Type} (registry : String → Bool)
    (dec : DecoderImpl σ) (cfg : Cfg) (s0 : RState σ) : RState σ :=
  if cfg.streamEncodingSet then
    doneWith s0 (Outcome.err ReadErr.streamEncodingSet)
  else
    match getDecoder registry cfg.encoding with
    | Except.error e => doneWith s0 (Outcome.err e)
    | Except.ok useDec =>
      { s0 with
        buffer := if useDec then Buf.text dec.init "" else Buf.raw [],
        attached := true,
        sync := false }

/-- The synchronous section of `readStream` (part_000 lines 148–206),
run to the point where the function returns to its caller: the
length/limit fast path, then `runSetupRest`.  Failures here happen
while `sync` is still true, so `done` only schedules the callback. -/
def runSetup {σ : Type} (registry : String → Bool) (dec : DecoderImpl σ)
    (cfg : Cfg) : RState σ :=
  let s0 := initState σ
  match cfg.limit, cfg.length with
  | some l, some n =>
    if n > l then
      doneWith s0 (Outcome.err (ReadErr.entityTooLargeFast n l))
    else runSetupRest registry dec cfg s0
  | _, _ => runSetupRest registry dec cfg s0

/-- Events driving one read: the signals of the source stream plus a
scheduler tick that runs one `process.nextTick` callback. -/
inductive Ev where
  | data : Chunk → Ev
  | endOfStream : Ev
  | errorEv : ℕ → Ev
  | aborted : Ev
  | closeEv : Ev
  | tick : Ev
  deriving DecidableEq, Repr

/-- Whether an event is a stream signal (as opposed to a scheduler
tick). -/
def Ev.isStreamSignal : Ev → Bool
  | Ev.tick => false
  | _ => true

/-- One step of the event loop.  Stream signals reach the handlers
only while the listeners are attached (`cleanup` removes them); a tick
runs the oldest scheduled `invokeCallback`. -/
def step {σ : Type} (dec : DecoderImpl σ) (cfg : Cfg) (s : RState σ) :
    Ev → RState σ
  | Ev.tick =>
    match s.pending with
    | [] => s
    | out :: rest => invokeCallback { s with pending := rest } out
  | Ev.data c => if s.attached then onData dec cfg.limit c s else s
  | Ev.endOfStream => if s.attached then onEnd dec cfg.length none s else s
  | Ev.errorEv e => if s.attached then onEnd dec cfg.length (some e) s else s
  | Ev.aborted => if s.attached then onAborted cfg.length s else s
  | Ev.closeEv => if s.attached then cleanup s else s

/-- Run the synchronous section of `readStream`, then a trace of events. -/
def run {σ : Type} (registry : String → Bool) (dec : DecoderImpl σ)
    (cfg : Cfg) (tr : List Ev) : RState σ :=
  tr.foldl (step dec cfg) (runSetup registry dec cfg)

/-! ## The orchestrator (src/src/lib/read.ts) -/

/-- The stream `contentstream` returns: the request itself (with the
`content-length` header stashed on its `length` property), or a zlib
transform piped from the request (no `length` property). -/
inductive ContentStream where
  | identityStream : Option String → ContentStream
  | inflateStream : ContentStream
  | gunzipStream : ContentStream
  deriving DecidableEq, Repr

/-- Errors thrown by `contentstream`; both are
`createError(415, …, {encoding, type: "encoding.unsupported"})`, from
the inflate-disabled branch and the unrecognized-token default branch
respectively. -/
inductive CsErr where
  | notAllowed : (encoding : String) → CsErr
  | unrecognized : (encoding : String) → CsErr
  deriving DecidableEq, Repr

/-- The encoding token carried by a `CsErr`. -/
def CsErr.encoding : CsErr → String
  | CsErr.notAllowed e => e
  | CsErr.unrecognized e => e

/-- `(req.headers["content-encoding"] || "identity").toLowerCase()`:
an absent or empty header is falsy and defaults to `"identity"`. -/
def contentEncodingToken (header : Option String) : String :=
  jsToLower
    (match header with
     | none => "identity"
     | some s => if s = "" then "identity" else s)

/-- `contentstream` from read.ts lines 138–175, as a function of the
two relevant headers and the `inflate` option. -/
def contentstream (ceHeader clHeader : Option String)
    (inflate : Bool) : Except CsErr ContentStream :=
  let encoding := contentEncodingToken ceHeader
  if inflate = false ∧ encoding ≠ "identity" then
    Except.error (CsErr.notAllowed encoding)
  else if encoding = "deflate" then Except.ok ContentStream.inflateStream
  else if encoding = "gzip" then Except.ok ContentStream.gunzipStream
  else if encoding = "identity" then
    Except.ok (ContentStream.identityStream clHeader)
  else Except.error (CsErr.unrecognized encoding)

/-- `stream.length` as read back by `read` (`length = stream.length`):
only the identity stream carries the declared length. -/
def ContentStream.declaredLength : ContentStream → Option String
  | ContentStream.identityStream l => l
  | _ => none

/-- The charset pre-check in `read` (read.ts lines 57–67).  The code
sets `opts.encoding = verify ? null : encoding` and then rejects with
415 `charset.unsupported` when `opts.encoding === null`, an encoding
was requested, and `iconv.encodingExists(encoding)` is false — so the
pre-check can only fire when a `verify` callback is present. -/
def charsetPrecheckRejects (registry : String → Bool) (verify : Bool)
    (encoding : Option String) : Bool :=
  verify &&
    match encoding with
    | some e => ! registry e
    | none => false

/-- An error as delivered by `read` to `next`: the re-classified
charset error, or the accumulator error wrapped by
`createError(400, error)` (http-errors keeps the `status` already on
the error when it has one, and applies the fallback 400 otherwise). -/
inductive OrchErr where
  | charsetUnsupported : (charset : Option String) → OrchErr
  | wrapped : ReadErr → OrchErr
  deriving DecidableEq, Repr

/-- Status of an orchestrator-delivered error. -/
def OrchErr.status : OrchErr → ℕ
  | OrchErr.charsetUnsupported _ => 415
  | OrchErr.wrapped e => e.status.getD 400

/-- The classification in the getBody error callback of `read` (read.ts
lines 73–84): an `encoding.unsupported` error is echoed back as a 415
`charset.unsupported` carrying `encoding.toLowerCase()`; anything else
becomes `createError(400, error)`. -/
def classifyGetBodyError (encoding : Option String) (e : ReadErr) :
    OrchErr :=
  if e.errType = some "encoding.unsupported" then
    OrchErr.charsetUnsupported (encoding.map jsToLower)
  else OrchErr.wrapped e

/-- Observable state of the getBody error branch of `read`: whether
`stream.resume()` has run, the callback registered with
`onFinished(req, …)` (if any), and the errors passed to `next`. -/
structure OrchState where
  resumed : Bool
  finishedCallback : Option OrchErr
  delivered : List OrchErr
  deriving DecidableEq, Repr

/-- Orchestrator state before the getBody callback runs. -/
def orchInit : OrchState :=
  { resumed := false, finishedCallback := none, delivered := [] }

/-- The getBody error callback of `read` (read.ts lines 72–91): classify
the error, resume the content stream, and register delivery of the
classified error with `onFinished(req, …)` — `next` is NOT called
here. -/
def orchOnBodyError (encoding : Option String) (e : ReadErr)
    (s : OrchState) : OrchState :=
  { s with
    resumed := true,
    finishedCallback := some (classifyGetBodyError encoding e) }

/-- The finished event of the request firing the `onFinished` callback,
which finally calls `next(createError(400, _error))` (status kept from
`_error` when set). -/
def orchOnReqFinished (s : OrchState) : OrchState :=
  match s.finishedCallback with
  | some e =>
    { s with finishedCallback := none, delivered := s.delivered ++ [e] }
  | none => s

/-! ## Sample instances used to evaluate the model on concrete inputs -/

/-- A concrete supported-encoding registry for examples: iconv-lite
recognizes `utf-8` and `latin1` but not `utf-7`. -/
def sampleRegistry (e : String) : Bool :=
  e == "utf-8" || e == "latin1"

/-- A concrete stateless decoder (one byte, one character), enough to
exercise the text-buffer path of the model. -/
def latin1Decoder : DecoderImpl Unit where
  init := ()
  write := fun _ c => ((), String.mk (c.map fun b => Char.ofNat (b % 128)))
  flushEnd := fun _ => ""

/-! ## State predicates -/

/-- The accumulator is mid-read: not terminal, past the synchronous
section, listeners attached, nothing scheduled or delivered.  This is
the shape of every reachable pre-terminal state of a well-formed read
(setup succeeded, no premature `close`). -/
def Reading {σ : Type} (s : RState σ) : Prop :=
  s.complete = false ∧ s.sync = false ∧ s.attached = true ∧
  s.pending = [] ∧ s.delivered = []

/-- The read has delivered exactly the outcome `out`, once, with the
listeners already detached when the callback fired. -/
def DeliveredOne {σ : Type} (s : RState σ) (out : Outcome) : Prop :=
  s.complete = true ∧ s.pending = [] ∧ s.delivered = [(false, out)]

/-- Safety invariant: at most one callback invocation is ever
delivered or scheduled, and none before the terminal transition. -/
def AtMostOnce {σ : Type} (s : RState σ) : Prop :=
  s.delivered.length + s.pending.length ≤ 1 ∧
  (s.complete = false → s.delivered = [] ∧ s.pending = [])

/-- A terminating stream signal: end of stream, stream error, or
abort. -/
def IsTerminator (t : Ev) : Prop :=
  t = Ev.endOfStream ∨ t = Ev.aborted ∨ ∃ e, t = Ev.errorEv e

/-! ## Helper lemmas -/

theorem invokeCallback_delivered {σ : Type} (s : RState σ) (out : Outcome) :
    (invokeCallback s out).delivered = s.delivered ++ [(false, out)] := by
  cases out <;> simp [invokeCallback, cleanup]

theorem invokeCallback_pending {σ : Type} (s : RState σ) (out : Outcome) :
    (invokeCallback s out).pending = s.pending := by
  cases out <;> simp [invokeCallback, cleanup]

theorem invokeCallback_complete {σ : Type} (s : RState σ) (out : Outcome) :
    (invokeCallback s out).complete = s.complete := by
  cases out <;> simp [invokeCallback, cleanup]

theorem invokeCallback_attached {σ : Type} (s : RState σ) (out : Outcome) :
    (invokeCallback s out).attached = false := by
  cases out <;> simp [invokeCallback, cleanup]

theorem doneWith_of_sync_false {σ : Type} (s : RState σ) (out : Outcome)
    (h : s.sync = false) :
    doneWith s out = invokeCallback { s with complete := true } out := by
  simp [doneWith, h]

theorem doneWith_of_sync_true {σ : Type} (s : RState σ) (out : Outcome)
    (h : s.sync = true) :
    doneWith s out = { s with complete := true, pending := s.pending ++ [out] } := by
  simp [doneWith, h]

/-- `done` from a mid-read state delivers exactly its argument. -/
theorem doneWith_reading {σ : Type} {s : RState σ} (h : Reading s)
    (out : Outcome) : DeliveredOne (doneWith s out) out := by
  obtain ⟨hc, hs, ha, hp, hd⟩ := h
  rw [doneWith_of_sync_false s out hs]
  refine ⟨?_, ?_, ?_⟩
  · rw [invokeCallback_complete]
  · rw [invokeCallback_pending]; exact hp
  · rw [invokeCallback_delivered]; simp [hd]

theorem doneWith_attached {σ : Type} {s : RState σ} (hs : s.sync = false)
    (out : Outcome) : (doneWith s out).attached = false := by
  rw [doneWith_of_sync_false s out hs, invokeCallback_attached]

theorem invokeCallback_halted_err {σ : Type} (s : RState σ) (e : ReadErr) :
    (invokeCallback s (Outcome.err e)).halted = true := by
  simp [invokeCallback, cleanup]

theorem doneWith_halted_err {σ : Type} {s : RState σ} (hs : s.sync = false)
    (e : ReadErr) : (doneWith s (Outcome.err e)).halted = true := by
  rw [doneWith_of_sync_false s _ hs, invokeCallback_halted_err]

theorem invokeCallback_received {σ : Type} (s : RState σ) (out : Outcome) :
    (invokeCallback s out).received = s.received := by
  cases out <;> simp [invokeCallback, cleanup]

theorem doneWith_received {σ : Type} (s : RState σ) (out : Outcome) :
    (doneWith s out).received = s.received := by
  by_cases hs : s.sync = true
  · rw [doneWith_of_sync_true _ _ hs]
  · have hs2 : s.sync = false := by simpa using hs
    rw [doneWith_of_sync_false _ _ hs2, invokeCallback_received]

instance {σ : Type} (s : RState σ) : Decidable (Reading s) :=
  inferInstanceAs (Decidable (s.complete = false ∧ s.sync = false ∧
    s.attached = true ∧ s.pending = [] ∧ s.delivered = []))

/-- Detached listeners: every stream signal is a no-op. -/
theorem step_detached {σ : Type} (dec : DecoderImpl σ) (cfg : Cfg)
    (s : RState σ) (ev : Ev) (ha : s.attached = false)
    (hs : ev.isStreamSignal = true) : step dec cfg s ev = s := by
  cases ev <;> simp_all [step, Ev.isStreamSignal]

/-- Post-terminal: a stream signal never changes what was delivered. -/
theorem step_complete_delivered {σ : Type} (dec : DecoderImpl σ)
    (cfg : Cfg) (s : RState σ) (ev : Ev) (hc : s.complete = true)
    (hs : ev.isStreamSignal = true) :
    (step dec cfg s ev).delivered = s.delivered := by
  cases ev
  case tick => simp [Ev.isStreamSignal] at hs
  case closeEv => by_cases ha : s.attached <;> simp [step, ha, cleanup]
  case data c => by_cases ha : s.attached <;> simp [step, ha, onData, hc]
  case endOfStream =>
    by_cases ha : s.attached <;> simp [step, ha, onEnd, hc]
  case errorEv e =>
    by_cases ha : s.attached <;> simp [step, ha, onEnd, hc]
  case aborted =>
    by_cases ha : s.attached <;> simp [step, ha, onAborted, hc]

/-- A terminal state with its single delivery stays that way under
every further event. -/
theorem deliveredOne_step {σ : Type} (dec : DecoderImpl σ) (cfg : Cfg)
    {s : RState σ} {out : Outcome} (h : DeliveredOne s out) (ev : Ev) :
    DeliveredOne (step dec cfg s ev) out := by
  obtain ⟨hc, hp, hd⟩ := h
  cases ev
  case tick =>
    simp only [step, hp]
    exact ⟨hc, hp, hd⟩
  case closeEv =>
    by_cases ha : s.attached <;>
      simp_all [step, cleanup, DeliveredOne]
  case data c =>
    by_cases ha : s.attached <;> simp_all [step, onData, DeliveredOne]
  case endOfStream =>
    by_cases ha : s.attached <;> simp_all [step, onEnd, DeliveredOne]
  case errorEv e =>
    by_cases ha : s.attached <;> simp_all [step, onEnd, DeliveredOne]
  case aborted =>
    by_cases ha : s.attached <;> simp_all [step, onAborted, DeliveredOne]

theorem deliveredOne_foldl {σ : Type} (dec : DecoderImpl σ) (cfg : Cfg)
    {s : RState σ} {out : Outcome} (h : DeliveredOne s out)
    (tr : List Ev) : DeliveredOne (tr.foldl (step dec cfg) s) out := by
  induction tr generalizing s with
  | nil => exact h
  | cons ev rest ih => exact ih (deliveredOne_step dec cfg h ev)

/-- `onData` from a mid-read state: either the chunk is within the
limit and the read keeps going with the counter advanced, or the
counter just passed the limit and the 413 is delivered at once. -/
theorem reading_step_data {σ : Type} (dec : DecoderImpl σ) (cfg : Cfg)
    (c : Chunk) {s : RState σ} (h : Reading s) :
    (Reading (step dec cfg s (Ev.data c)) ∧
       (step dec cfg s (Ev.data c)).received = s.received + c.length) ∨
    ∃ l, cfg.limit = some l ∧ ((s.received + c.length : ℤ) > l) ∧
      DeliveredOne (step dec cfg s (Ev.data c))
        (Outcome.err (ReadErr.entityTooLarge l (s.received + c.length))) := by
  obtain ⟨hc, hs, ha, hp, hd⟩ := h
  have hstep : step dec cfg s (Ev.data c) = onData dec cfg.limit c s := by
    simp [step, ha]
  rw [hstep]
  unfold onData
  rw [hc]
  simp only [Bool.false_eq_true, if_false]
  cases hl : cfg.limit with
  | none =>
    left
    cases hb : s.buffer <;>
      simp_all [Reading]
  | some l =>
    try dsimp only
    split_ifs with hover
    · right
      refine ⟨l, rfl, by exact_mod_cast hover, ?_⟩
      refine doneWith_reading ?_ _
      refine ⟨?_, ?_, ?_, ?_, ?_⟩ <;> simp_all
    · left
      cases hb : s.buffer <;> simp_all [Reading]

/-- `onAborted` from a mid-read state delivers the 400
`request.aborted` error with the declared length and the bytes
received so far. -/
theorem reading_aborted {σ : Type} (dec : DecoderImpl σ) (cfg : Cfg)
    {s : RState σ} (h : Reading s) :
    DeliveredOne (step dec cfg s Ev.aborted)
      (Outcome.err (ReadErr.requestAborted cfg.length s.received)) := by
  obtain ⟨hc, hs, ha, hp, hd⟩ := h
  have hstep : step dec cfg s Ev.aborted = onAborted cfg.length s := by
    simp [step, ha]
  rw [hstep]
  unfold onAborted
  rw [hc]
  simp only [Bool.false_eq_true, if_false]
  exact doneWith_reading ⟨hc, hs, ha, hp, hd⟩ _

/-- A stream error mid-read is forwarded unclassified. -/
theorem reading_error_ev {σ : Type} (dec : DecoderImpl σ) (cfg : Cfg)
    {s : RState σ} (h : Reading s) (e : ℕ) :
    DeliveredOne (step dec cfg s (Ev.errorEv e))
      (Outcome.err (ReadErr.ioError e)) := by
  obtain ⟨hc, hs, ha, hp, hd⟩ := h
  have hstep : step dec cfg s (Ev.errorEv e) = onEnd dec cfg.length (some e) s := by
    simp [step, ha]
  rw [hstep]
  unfold onEnd
  rw [hc]
  simp only [Bool.false_eq_true, if_false]
  try dsimp only
  exact doneWith_reading ⟨hc, hs, ha, hp, hd⟩ _

/-- End of stream with a declared length the counter does not match:
the 400 `request.size.invalid` error with the exact values. -/
theorem reading_end_mismatch {σ : Type} (dec : DecoderImpl σ) (cfg : Cfg)
    {s : RState σ} (h : Reading s) {n : ℤ} (hl : cfg.length = some n)
    (hne : (s.received : ℤ) ≠ n) :
    DeliveredOne (step dec cfg s Ev.endOfStream)
      (Outcome.err (ReadErr.sizeMismatch n s.received)) := by
  obtain ⟨hc, hs, ha, hp, hd⟩ := h
  have hstep : step dec cfg s Ev.endOfStream = onEnd dec cfg.length none s := by
    simp [step, ha]
  rw [hstep]
  unfold onEnd
  rw [hc]
  simp only [Bool.false_eq_true, if_false]
  try dsimp only
  rw [hl]
  try dsimp only
  rw [if_pos hne]
  exact doneWith_reading ⟨hc, hs, ha, hp, hd⟩ _

/-- End of stream with a consistent (or absent) declared length and a
decoder in use: success with the accumulated text plus the decoder
flush. -/
theorem reading_end_text {σ : Type} (dec : DecoderImpl σ) (cfg : Cfg)
    {s : RState σ} (h : Reading s) {st : σ} {acc : String}
    (hb : s.buffer = Buf.text st acc)
    (hlen : cfg.length = none ∨ cfg.length = some ((s.received : ℤ))) :
    DeliveredOne (step dec cfg s Ev.endOfStream)
      (Outcome.ok (Payload.text (acc ++ dec.flushEnd st))) := by
  obtain ⟨hc, hs, ha, hp, hd⟩ := h
  have hstep : step dec cfg s Ev.endOfStream = onEnd dec cfg.length none s := by
    simp [step, ha]
  rw [hstep]
  unfold onEnd
  rw [hc]
  simp only [Bool.false_eq_true, if_false]
  try dsimp only
  rcases hlen with hlen | hlen <;> rw [hlen] <;> dsimp only
  · rw [hb]
    exact doneWith_reading ⟨hc, hs, ha, hp, hd⟩ _
  · rw [if_neg (by simp)]
    rw [hb]
    exact doneWith_reading ⟨hc, hs, ha, hp, hd⟩ _

/-- End of stream with a consistent (or absent) declared length and no
decoder: success with the concatenation of the raw chunks. -/
theorem reading_end_raw {σ : Type} (dec : DecoderImpl σ) (cfg : Cfg)
    {s : RState σ} (h : Reading s) {chunks : List Chunk}
    (hb : s.buffer = Buf.raw chunks)
    (hlen : cfg.length = none ∨ cfg.length = some ((s.received : ℤ))) :
    DeliveredOne (step dec cfg s Ev.endOfStream)
      (Outcome.ok (Payload.bytes chunks.flatten)) := by
  obtain ⟨hc, hs, ha, hp, hd⟩ := h
  have hstep : step dec cfg s Ev.endOfStream = onEnd dec cfg.length none s := by
    simp [step, ha]
  rw [hstep]
  unfold onEnd
  rw [hc]
  simp only [Bool.false_eq_true, if_false]
  try dsimp only
  rcases hlen with hlen | hlen <;> rw [hlen] <;> dsimp only
  · rw [hb]
    exact doneWith_reading ⟨hc, hs, ha, hp, hd⟩ _
  · rw [if_neg (by simp)]
    rw [hb]
    exact doneWith_reading ⟨hc, hs, ha, hp, hd⟩ _

/-- Any terminating stream signal, received mid-read, delivers some
single outcome. -/
theorem reading_terminator {σ : Type} (dec : DecoderImpl σ) (cfg : Cfg)
    {s : RState σ} (h : Reading s) {t : Ev} (ht : IsTerminator t) :
    ∃ out, DeliveredOne (step dec cfg s t) out := by
  rcases ht with rfl | rfl | ⟨e, rfl⟩
  · rcases hl : cfg.length with _ | n
    · cases hb : s.buffer with
      | text st acc => exact ⟨_, reading_end_text dec cfg h hb (Or.inl hl)⟩
      | raw chunks => exact ⟨_, reading_end_raw dec cfg h hb (Or.inl hl)⟩
      | nulled =>
        obtain ⟨hc, hs, ha, hp, hd⟩ := h
        have hstep : step dec cfg s Ev.endOfStream = onEnd dec cfg.length none s := by
          simp [step, ha]
        rw [hstep]
        unfold onEnd
        rw [hc]
        simp only [Bool.false_eq_true, if_false]
        try dsimp only
        rw [hl]
        try dsimp only
        rw [hb]
        exact ⟨_, doneWith_reading ⟨hc, hs, ha, hp, hd⟩ _⟩
    · by_cases hne : (s.received : ℤ) = n
      · cases hb : s.buffer with
        | text st acc =>
          exact ⟨_, reading_end_text dec cfg h hb (Or.inr (by rw [hl, hne]))⟩
        | raw chunks =>
          exact ⟨_, reading_end_raw dec cfg h hb (Or.inr (by rw [hl, hne]))⟩
        | nulled =>
          obtain ⟨hc, hs, ha, hp, hd⟩ := h
          have hstep : step dec cfg s Ev.endOfStream = onEnd dec cfg.length none s := by
            simp [step, ha]
          rw [hstep]
          unfold onEnd
          rw [hc]
          simp only [Bool.false_eq_true, if_false]
          try dsimp only
          rw [hl]
          try dsimp only
          rw [if_neg (by simp [hne]), hb]
          exact ⟨_, doneWith_reading ⟨hc, hs, ha, hp, hd⟩ _⟩
      · exact ⟨_, reading_end_mismatch dec cfg h hl hne⟩
  · exact ⟨_, reading_aborted dec cfg h⟩
  · exact ⟨_, reading_error_ev dec cfg h e⟩

/-- Over a prefix of data chunks, a mid-read accumulator either keeps
reading or has tripped the limit and delivered its one error. -/
theorem reading_data_foldl {σ : Type} (dec : DecoderImpl σ) (cfg : Cfg)
    {s : RState σ} (h : Reading s) (ds : List Ev)
    (hds : ∀ e ∈ ds, ∃ c, e = Ev.data c) :
    Reading (ds.foldl (step dec cfg) s) ∨
      ∃ out, DeliveredOne (ds.foldl (step dec cfg) s) out := by
  revert hds
  induction ds generalizing s with
  | nil =>
    intro _
    exact Or.inl h
  | cons ev rest ih =>
    intro hds
    obtain ⟨c, rfl⟩ := hds ev (List.mem_cons_self ev rest)
    rw [List.foldl_cons]
    rcases reading_step_data dec cfg c h with ⟨hr, _⟩ | ⟨l, _, _, hdel⟩
    · exact ih hr fun e he => hds e (List.mem_cons_of_mem _ he)
    · exact Or.inr ⟨_, deliveredOne_foldl dec cfg hdel rest⟩

/-- The length/limit fast path: `readStream` returns with the 413
already scheduled on the next tick, nothing attached, nothing read. -/
theorem runSetup_fastpath {σ : Type} (registry : String → Bool)
    (dec : DecoderImpl σ) (cfg : Cfg) {l n : ℤ}
    (hl : cfg.limit = some l) (hn : cfg.length = some n) (hgt : n > l) :
    runSetup registry dec cfg =
      { initState σ with
          complete := true,
          pending := [Outcome.err (ReadErr.entityTooLargeFast n l)] } := by
  unfold runSetup
  rw [hl, hn]
  dsimp only
  rw [if_pos hgt, doneWith_of_sync_true _ _ rfl]
  simp [initState]

/-- An unsupported (non-empty) charset: `getDecoder` throws, and
`readStream` returns with the 415 scheduled, nothing attached,
nothing read. -/
theorem runSetup_decoder_unsupported {σ : Type} (registry : String → Bool)
    (dec : DecoderImpl σ) (cfg : Cfg) {e : String}
    (hfast : ∀ l n : ℤ, cfg.limit = some l → cfg.length = some n → ¬ n > l)
    (hse : cfg.streamEncodingSet = false)
    (henc : cfg.encoding = some e) (hne : ¬ e = "")
    (hreg : registry e = false) :
    runSetup registry dec cfg =
      { initState σ with
          complete := true,
          pending := [Outcome.err (ReadErr.encodingUnsupported e)] } := by
  have hrest : runSetupRest registry dec cfg (initState σ) =
      { initState σ with
          complete := true,
          pending := [Outcome.err (ReadErr.encodingUnsupported e)] } := by
    unfold runSetupRest
    rw [hse]
    simp only [Bool.false_eq_true, if_false]
    have hg : getDecoder registry cfg.encoding =
        Except.error (ReadErr.encodingUnsupported e) := by
      unfold getDecoder
      rw [henc]
      simp [hne, hreg]
    rw [hg]
    dsimp only
    rw [doneWith_of_sync_true (initState σ) _ rfl]
    simp [initState]
  unfold runSetup
  rcases hl2 : cfg.limit with _ | l2
  · dsimp only
    exact hrest
  · rcases hn2 : cfg.length with _ | n2
    · dsimp only
      exact hrest
    · dsimp only
      rw [if_neg (hfast l2 n2 hl2 hn2)]
      exact hrest

/-- When the synchronous section passes all its checks, `readStream`
returns in the mid-read state: listeners attached, nothing scheduled
or delivered. -/
theorem runSetup_reading {σ : Type} (registry : String → Bool)
    (dec : DecoderImpl σ) (cfg : Cfg)
    (hfast : ∀ l n : ℤ, cfg.limit = some l → cfg.length = some n → ¬ n > l)
    (hse : cfg.streamEncodingSet = false) {b : Bool}
    (hdec : getDecoder registry cfg.encoding = Except.ok b) :
    Reading (runSetup registry dec cfg) := by
  have hrest : Reading (runSetupRest registry dec cfg (initState σ)) := by
    unfold runSetupRest
    rw [hse]
    simp only [Bool.false_eq_true, if_false]
    rcases hdec2 : getDecoder registry cfg.encoding with e | b2
    · rw [hdec] at hdec2
      exact absurd hdec2 (by simp)
    · dsimp only
      exact ⟨rfl, rfl, rfl, rfl, rfl⟩
  unfold runSetup
  rcases hl2 : cfg.limit with _ | l2
  · dsimp only
    exact hrest
  · rcases hn2 : cfg.length with _ | n2
    · dsimp only
      exact hrest
    · dsimp only
      rw [if_neg (hfast l2 n2 hl2 hn2)]
      exact hrest

/-- Every way out of the synchronous section: either the read is in
progress, or a single outcome is already scheduled for the next tick
(and nothing was attached or delivered). -/
theorem runSetup_dichotomy {σ : Type} (registry : String → Bool)
    (dec : DecoderImpl σ) (cfg : Cfg) :
    Reading (runSetup registry dec cfg) ∨
      ∃ out, runSetup registry dec cfg =
        { initState σ with complete := true, pending := [out] } := by
  have hrest : Reading (runSetupRest registry dec cfg (initState σ)) ∨
      ∃ out, runSetupRest registry dec cfg (initState σ) =
        { initState σ with complete := true, pending := [out] } := by
    unfold runSetupRest
    cases hse : cfg.streamEncodingSet
    · simp only [Bool.false_eq_true, if_false]
      rcases hg : getDecoder registry cfg.encoding with e | b
      · right
        refine ⟨Outcome.err e, ?_⟩
        dsimp only
        rw [doneWith_of_sync_true (initState σ) _ rfl]
        simp [initState]
      · left
        dsimp only
        exact ⟨rfl, rfl, rfl, rfl, rfl⟩
    · right
      refine ⟨Outcome.err ReadErr.streamEncodingSet, ?_⟩
      simp only [if_pos]
      rw [doneWith_of_sync_true (initState σ) _ rfl]
      simp [initState]
  unfold runSetup
  rcases hl2 : cfg.limit with _ | l2
  · dsimp only
    exact hrest
  · rcases hn2 : cfg.length with _ | n2
    · dsimp only
      exact hrest
    · dsimp only
      split_ifs with hgt
      · right
        refine ⟨Outcome.err (ReadErr.entityTooLargeFast n2 l2), ?_⟩
        rw [doneWith_of_sync_true (initState σ) _ rfl]
        simp [initState]
      · exact hrest

/-- The synchronous section never invokes the callback. -/
theorem runSetup_delivered_nil {σ : Type} (registry : String → Bool)
    (dec : DecoderImpl σ) (cfg : Cfg) :
    (runSetup registry dec cfg).delivered = [] := by
  rcases runSetup_dichotomy registry dec cfg (σ := σ) with h | ⟨out, h⟩
  · exact h.2.2.2.2
  · simp [h, initState]

/-- A scheduler tick with exactly one scheduled callback runs it. -/
theorem step_tick_single {σ : Type} (dec : DecoderImpl σ) (cfg : Cfg)
    (s : RState σ) (out : Outcome) (hp : s.pending = [out]) :
    step dec cfg s Ev.tick = invokeCallback { s with pending := [] } out := by
  simp only [step, hp]

theorem atMostOnce_doneWith {σ : Type} {s : RState σ}
    (hd : s.delivered = []) (hp : s.pending = []) (out : Outcome) :
    AtMostOnce (doneWith s out) := by
  by_cases hs : s.sync = true
  · rw [doneWith_of_sync_true _ _ hs]
    exact ⟨by simp [hd, hp], by simp⟩
  · have hs2 : s.sync = false := by simpa using hs
    rw [doneWith_of_sync_false _ _ hs2]
    refine ⟨?_, ?_⟩
    · rw [invokeCallback_delivered, invokeCallback_pending]
      simp [hd, hp]
    · intro hc
      rw [invokeCallback_complete] at hc
      simp at hc

theorem doneWith_delivered_cases {σ : Type} (s : RState σ) (out : Outcome) :
    (doneWith s out).delivered = s.delivered ∨
      (doneWith s out).delivered = s.delivered ++ [(false, out)] := by
  by_cases hs : s.sync = true
  · left
    rw [doneWith_of_sync_true _ _ hs]
  · right
    have hs2 : s.sync = false := by simpa using hs
    rw [doneWith_of_sync_false _ _ hs2, invokeCallback_delivered]

theorem atMostOnce_onData {σ : Type} (dec : DecoderImpl σ)
    (limit : Option ℤ) (c : Chunk) {s : RState σ} (h : AtMostOnce s) :
    AtMostOnce (onData dec limit c s) := by
  obtain ⟨hle, hnc⟩ := h
  unfold onData
  cases hc : s.complete
  · obtain ⟨hd0, hp0⟩ := hnc hc
    simp only [Bool.false_eq_true, if_false]
    try dsimp only
    cases hl : limit with
    | none =>
      cases hb : s.buffer <;> exact ⟨by simp [hd0, hp0], fun _ => ⟨hd0, hp0⟩⟩
    | some l =>
      dsimp only
      split_ifs with hover
      · apply atMostOnce_doneWith
        · exact hd0
        · exact hp0
      · cases hb : s.buffer <;> exact ⟨by simp [hd0, hp0], fun _ => ⟨hd0, hp0⟩⟩
  · rw [if_pos rfl]
    exact ⟨hle, hnc⟩

theorem atMostOnce_onEnd {σ : Type} (dec : DecoderImpl σ)
    (length : Option ℤ) (errArg : Option ℕ) {s : RState σ}
    (h : AtMostOnce s) : AtMostOnce (onEnd dec length errArg s) := by
  obtain ⟨hle, hnc⟩ := h
  unfold onEnd
  cases hc : s.complete
  · obtain ⟨hd0, hp0⟩ := hnc hc
    simp only [Bool.false_eq_true, if_false]
    cases errArg
    · dsimp only
      cases hl : length with
      | none =>
        dsimp only
        cases hb : s.buffer <;> exact atMostOnce_doneWith hd0 hp0 _
      | some n =>
        dsimp only
        split_ifs with hne
        · exact atMostOnce_doneWith hd0 hp0 _
        · cases hb : s.buffer <;> exact atMostOnce_doneWith hd0 hp0 _
    · dsimp only
      exact atMostOnce_doneWith hd0 hp0 _
  · rw [if_pos rfl]
    exact ⟨hle, hnc⟩

theorem atMostOnce_onAborted {σ : Type} (length : Option ℤ)
    {s : RState σ} (h : AtMostOnce s) : AtMostOnce (onAborted length s) := by
  obtain ⟨hle, hnc⟩ := h
  unfold onAborted
  cases hc : s.complete
  · obtain ⟨hd0, hp0⟩ := hnc hc
    simp only [Bool.false_eq_true, if_false]
    exact atMostOnce_doneWith hd0 hp0 _
  · rw [if_pos rfl]
    exact ⟨hle, hnc⟩

/-- Every event preserves the at-most-one-delivery invariant. -/
theorem atMostOnce_step {σ : Type} (dec : DecoderImpl σ) (cfg : Cfg)
    {s : RState σ} (h : AtMostOnce s) (ev : Ev) :
    AtMostOnce (step dec cfg s ev) := by
  obtain ⟨hle, hnc⟩ := h
  cases ev
  case tick =>
    cases hp : s.pending with
    | nil =>
      simp only [step, hp]
      exact ⟨hle, hnc⟩
    | cons out rest =>
      have hc : s.complete = true := by
        cases hcc : s.complete
        · obtain ⟨_, hp2⟩ := hnc hcc
          rw [hp2] at hp
          cases hp
        · rfl
      rw [hp] at hle
      simp only [List.length_cons] at hle
      have hd0 : s.delivered.length = 0 := by omega
      have hr0 : rest.length = 0 := by omega
      have hrest : rest = [] := List.eq_nil_of_length_eq_zero hr0
      rw [hrest] at hp
      rw [step_tick_single dec cfg s out hp]
      refine ⟨?_, ?_⟩
      · rw [invokeCallback_delivered, invokeCallback_pending]
        dsimp only
        simp only [List.length_append, List.length_cons, List.length_nil]
        omega
      · intro hcf
        rw [invokeCallback_complete] at hcf
        rw [hc] at hcf
        cases hcf
  case closeEv =>
    by_cases ha : s.attached
    · refine ⟨?_, ?_⟩ <;> simp only [step, ha, if_pos, cleanup] <;>
        first
          | exact hle
          | exact hnc
    · refine ⟨?_, ?_⟩ <;> simp only [step, ha, if_neg] <;>
        first
          | exact hle
          | exact hnc
  case data c =>
    by_cases ha : s.attached
    · have hstep : step dec cfg s (Ev.data c) = onData dec cfg.limit c s := by
        simp [step, ha]
      rw [hstep]
      exact atMostOnce_onData dec cfg.limit c ⟨hle, hnc⟩
    · have hstep : step dec cfg s (Ev.data c) = s := by simp [step, ha]
      rw [hstep]
      exact ⟨hle, hnc⟩
  case endOfStream =>
    by_cases ha : s.attached
    · have hstep : step dec cfg s Ev.endOfStream = onEnd dec cfg.length none s := by
        simp [step, ha]
      rw [hstep]
      exact atMostOnce_onEnd dec cfg.length none ⟨hle, hnc⟩
    · have hstep : step dec cfg s Ev.endOfStream = s := by simp [step, ha]
      rw [hstep]
      exact ⟨hle, hnc⟩
  case errorEv e =>
    by_cases ha : s.attached
    · have hstep : step dec cfg s (Ev.errorEv e) = onEnd dec cfg.length (some e) s := by
        simp [step, ha]
      rw [hstep]
      exact atMostOnce_onEnd dec cfg.length (some e) ⟨hle, hnc⟩
    · have hstep : step dec cfg s (Ev.errorEv e) = s := by simp [step, ha]
      rw [hstep]
      exact ⟨hle, hnc⟩
  case aborted =>
    by_cases ha : s.attached
    · have hstep : step dec cfg s Ev.aborted = onAborted cfg.length s := by
        simp [step, ha]
      rw [hstep]
      exact atMostOnce_onAborted cfg.length ⟨hle, hnc⟩
    · have hstep : step dec cfg s Ev.aborted = s := by simp [step, ha]
      rw [hstep]
      exact ⟨hle, hnc⟩

theorem atMostOnce_runSetup {σ : Type} (registry : String → Bool)
    (dec : DecoderImpl σ) (cfg : Cfg) :
    AtMostOnce (runSetup registry dec cfg) := by
  rcases runSetup_dichotomy registry dec cfg (σ := σ) with h | ⟨out, h⟩
  · exact ⟨by simp [h.2.2.2.1, h.2.2.2.2], fun _ => ⟨h.2.2.2.2, h.2.2.2.1⟩⟩
  · rw [h]
    exact ⟨by simp [initState], by simp⟩

theorem atMostOnce_run {σ : Type} (registry : String → Bool)
    (dec : DecoderImpl σ) (cfg : Cfg) (tr : List Ev) :
    AtMostOnce (run registry dec cfg tr) := by
  have key : ∀ (t : List Ev) (s : RState σ), AtMostOnce s →
      AtMostOnce (t.foldl (step dec cfg) s) := by
    intro t
    induction t with
    | nil => exact fun s h => h
    | cons ev rest ih =>
      intro s h
      rw [List.foldl_cons]
      exact ih _ (atMostOnce_step dec cfg h ev)
  exact key tr _ (atMostOnce_runSetup registry dec cfg)

/-- One event grows the delivery log by at most one entry, always with
the listeners-detached flag. -/
theorem step_delivered_mono {σ : Type} (dec : DecoderImpl σ) (cfg : Cfg)
    (s : RState σ) (ev : Ev) :
    (step dec cfg s ev).delivered = s.delivered ∨
      ∃ out, (step dec cfg s ev).delivered = s.delivered ++ [(false, out)] := by
  have hdone : ∀ (s2 : RState σ) (out : Outcome), s2.delivered = s.delivered →
      (doneWith s2 out).delivered = s.delivered ∨
        ∃ o, (doneWith s2 out).delivered = s.delivered ++ [(false, o)] := by
    intro s2 out hagree
    rcases doneWith_delivered_cases s2 out with h | h
    · left
      rw [h, hagree]
    · right
      exact ⟨out, by rw [h, hagree]⟩
  cases ev
  case tick =>
    cases hp : s.pending with
    | nil =>
      left
      simp [step, hp]
    | cons out rest =>
      right
      refine ⟨out, ?_⟩
      simp only [step, hp]
      rw [invokeCallback_delivered]
  case closeEv =>
    left
    by_cases ha : s.attached <;> simp [step, ha, cleanup]
  case data c =>
    by_cases ha : s.attached
    · have hstep : step dec cfg s (Ev.data c) = onData dec cfg.limit c s := by
        simp [step, ha]
      rw [hstep]
      unfold onData
      cases hc : s.complete
      · simp only [Bool.false_eq_true, if_false]
        try dsimp only
        cases hl : cfg.limit with
        | none => left; cases hb : s.buffer <;> rfl
        | some l =>
          dsimp only
          split_ifs with hover
          · exact hdone _ _ rfl
          · left; cases hb : s.buffer <;> rfl
      · left
        rw [if_pos rfl]
    · left
      simp [step, ha]
  case endOfStream =>
    by_cases ha : s.attached
    · have hstep : step dec cfg s Ev.endOfStream = onEnd dec cfg.length none s := by
        simp [step, ha]
      rw [hstep]
      unfold onEnd
      cases hc : s.complete
      · simp only [Bool.false_eq_true, if_false]
        try dsimp only
        cases hl : cfg.length with
        | none => dsimp only; cases hb : s.buffer <;> exact hdone _ _ rfl
        | some n =>
          dsimp only
          split_ifs with hne
          · exact hdone _ _ rfl
          · cases hb : s.buffer <;> exact hdone _ _ rfl
      · left
        rw [if_pos rfl]
    · left
      simp [step, ha]
  case errorEv e =>
    by_cases ha : s.attached
    · have hstep : step dec cfg s (Ev.errorEv e) = onEnd dec cfg.length (some e) s := by
        simp [step, ha]
      rw [hstep]
      unfold onEnd
      cases hc : s.complete
      · simp only [Bool.false_eq_true, if_false]
        try dsimp only
        exact hdone _ _ rfl
      · left
        rw [if_pos rfl]
    · left
      simp [step, ha]
  case aborted =>
    by_cases ha : s.attached
    · have hstep : step dec cfg s Ev.aborted = onAborted cfg.length s := by
        simp [step, ha]
      rw [hstep]
      unfold onAborted
      cases hc : s.complete
      · simp only [Bool.false_eq_true, if_false]
        exact hdone _ _ rfl
      · left
        rw [if_pos rfl]
    · left
      simp [step, ha]

/-- The callback always fires after `cleanup`: every recorded delivery
carries `attached = false`. -/
theorem flagsFalse_run {σ : Type} (registry : String → Bool)
    (dec : DecoderImpl σ) (cfg : Cfg) (tr : List Ev) :
    ∀ p ∈ (run registry dec cfg tr).delivered, p.1 = false := by
  have key : ∀ (t : List Ev) (s : RState σ),
      (∀ p ∈ s.delivered, p.1 = false) →
      ∀ p ∈ (t.foldl (step dec cfg) s).delivered, p.1 = false := by
    intro t
    induction t with
    | nil => exact fun s h => h
    | cons ev rest ih =>
      intro s h
      rw [List.foldl_cons]
      refine ih _ ?_
      rcases step_delivered_mono dec cfg s ev with hm | ⟨out, hm⟩
      · rw [hm]
        exact h
      · rw [hm]
        intro p hp
        rcases List.mem_append.mp hp with hp | hp
        · exact h p hp
        · rw [List.mem_singleton.mp hp]
  unfold run
  apply key
  rw [runSetup_delivered_nil]
  intro p hp
  cases hp

/-- Stream signals are no-ops while no listeners are attached (used
for the pre-attach failure paths); the state cannot re-attach. -/
theorem foldl_detached {σ : Type} (dec : DecoderImpl σ) (cfg : Cfg)
    (tr : List Ev) (s : RState σ) (ha : s.attached = false)
    (htr : ∀ ev ∈ tr, ev.isStreamSignal = true) :
    tr.foldl (step dec cfg) s = s := by
  induction tr with
  | nil => rfl
  | cons ev rest ih =>
    rw [List.foldl_cons,
      step_detached dec cfg s ev ha (htr ev (List.mem_cons_self ev rest))]
    exact ih fun e he => htr e (List.mem_cons_of_mem _ he)

/-! ## Example configurations (used to instantiate the theorems) -/

/-- Plain read: no charset, no declared length, no limit. -/
def cfgPlain : Cfg :=
  { encoding := none, length := none, limit := none,
    streamEncodingSet := false }

/-- Declared length 20 over limit 10: the fast-path rejection. -/
def cfgFast : Cfg :=
  { encoding := none, length := some 20, limit := some 10,
    streamEncodingSet := false }

/-- Byte limit 10, no declared length. -/
def cfgLimit10 : Cfg :=
  { encoding := none, length := none, limit := some 10,
    streamEncodingSet := false }

/-- Declared length 10, no limit. -/
def cfgLen10 : Cfg :=
  { encoding := none, length := some 10, limit := none,
    streamEncodingSet := false }

/-- Requested charset `utf-7`, not in the iconv-lite registry. -/
def cfgUtf7 : Cfg :=
  { encoding := some "utf-7", length := none, limit := none,
    streamEncodingSet := false }

/-! ## The claims -/

/-- C1: every read delivers exactly one terminal outcome — never zero,
never both.  (1) at most one callback invocation over any event trace;
(2) every invocation happens with the listeners already detached (the
flag recorded at callback time is false); (3) once terminal, a further
stream signal never changes what was delivered; (4) for a well-formed
trace — data chunks, then end/error/abort, then anything — from a
setup that reached the reading state, exactly one outcome is
delivered. -/
theorem claim_C1_exactly_one_terminal_outcome {σ : Type}
    (registry : String → Bool) (dec : DecoderImpl σ) (cfg : Cfg) :
    (∀ tr : List Ev, (run registry dec cfg tr).delivered.length ≤ 1) ∧
    (∀ tr : List Ev, ∀ p ∈ (run registry dec cfg tr).delivered,
      p.1 = false) ∧
    (∀ s : RState σ, ∀ ev : Ev, s.complete = true →
      ev.isStreamSignal = true →
      (step dec cfg s ev).delivered = s.delivered) ∧
    (∀ ds : List Ev, ∀ t : Ev, ∀ rest : List Ev,
      (∀ e ∈ ds, ∃ c, e = Ev.data c) → IsTerminator t →
      Reading (runSetup registry dec cfg) →
      (run registry dec cfg (ds ++ t :: rest)).delivered.length = 1) := by
  refine ⟨?_, ?_, ?_, ?_⟩
  · intro tr
    have h := (atMostOnce_run registry dec cfg tr).1
    omega
  · exact flagsFalse_run registry dec cfg
  · exact fun s ev => step_complete_delivered dec cfg s ev
  · intro ds t rest hds ht hread
    unfold run
    rw [List.foldl_append]
    rcases reading_data_foldl dec cfg hread ds hds with hr | ⟨out, hdone⟩
    · obtain ⟨out, hdel⟩ := reading_terminator dec cfg hr ht
      rw [List.foldl_cons]
      rw [(deliveredOne_foldl dec cfg hdel rest).2.2]
      rfl
    · rw [(deliveredOne_foldl dec cfg hdone (t :: rest)).2.2]
      rfl

/-- C1 witness: a two-byte chunk, end of stream, then a stray close
still yields exactly one delivery. -/
theorem claim_C1_exactly_one_terminal_outcome_witness :
    (run sampleRegistry latin1Decoder cfgPlain
      ([Ev.data [104, 105]] ++ Ev.endOfStream :: [Ev.closeEv])).delivered.length = 1 :=
  (claim_C1_exactly_one_terminal_outcome sampleRegistry latin1Decoder
      cfgPlain).2.2.2
    [Ev.data [104, 105]] Ev.endOfStream [Ev.closeEv]
    (by
      intro e he
      rw [List.mem_singleton] at he
      exact ⟨[104, 105], he⟩)
    (Or.inl rfl)
    (by decide)

/-- C2: a chunk that pushes the counter past the limit delivers the
413 `entity.too.large` carrying the limit and the full received count,
halts the stream (unpipe + pause), detaches the listeners, and every
later stream signal (in particular further chunks) is a no-op; on the
concrete scenario — limit 10, chunks of 8 then 7 bytes — the outcome
is `EntityTooLarge (limit 10, received 15)` and a third chunk is not
processed. -/
theorem claim_C2_limit_exceeded_halts {σ : Type} (dec : DecoderImpl σ)
    (cfg : Cfg) {l : ℤ} {s : RState σ} (c : Chunk)
    (hl : cfg.limit = some l) (h : Reading s)
    (hover : ((s.received + c.length : ℕ) : ℤ) > l) :
    ((step dec cfg s (Ev.data c)).delivered =
        [(false, Outcome.err (ReadErr.entityTooLarge l (s.received + c.length)))] ∧
      (step dec cfg s (Ev.data c)).halted = true ∧
      (step dec cfg s (Ev.data c)).attached = false ∧
      (step dec cfg s (Ev.data c)).received = s.received + c.length ∧
      ∀ ev : Ev, ev.isStreamSignal = true →
        step dec cfg (step dec cfg s (Ev.data c)) ev =
          step dec cfg s (Ev.data c)) ∧
    ((run sampleRegistry latin1Decoder cfgLimit10
        [Ev.data (List.replicate 8 0), Ev.data (List.replicate 7 0),
         Ev.data [9], Ev.endOfStream]).delivered =
      [(false, Outcome.err (ReadErr.entityTooLarge 10 15))] ∧
     (run sampleRegistry latin1Decoder cfgLimit10
        [Ev.data (List.replicate 8 0), Ev.data (List.replicate 7 0),
         Ev.data [9], Ev.endOfStream]).received = 15) := by
  constructor
  · obtain ⟨hc, hs, ha, hp, hd⟩ := h
    have hstep : step dec cfg s (Ev.data c) = onData dec cfg.limit c s := by
      simp [step, ha]
    rw [hstep]
    unfold onData
    rw [hc]
    simp only [Bool.false_eq_true, if_false]
    rw [hl]
    dsimp only
    split_ifs
    · refine ⟨(doneWith_reading ?_ _).2.2, ?_, ?_, ?_, ?_⟩
      · exact ⟨rfl, hs, ha, hp, hd⟩
      · apply doneWith_halted_err
        exact hs
      · apply doneWith_attached
        exact hs
      · rw [doneWith_received]
      · intro ev hsig
        apply step_detached
        · apply doneWith_attached
          exact hs
        · exact hsig
  · constructor <;> decide

/-- C2 witness: limit 10, a mid-read state with 8 bytes received, a
7-byte chunk arrives. -/
theorem claim_C2_limit_exceeded_halts_witness :
    (step latin1Decoder cfgLimit10
        (run sampleRegistry latin1Decoder cfgLimit10
          [Ev.data (List.replicate 8 0)])
        (Ev.data (List.replicate 7 0))).delivered =
      [(false, Outcome.err (ReadErr.entityTooLarge 10
        ((run sampleRegistry latin1Decoder cfgLimit10
          [Ev.data (List.replicate 8 0)]).received + 7)))] :=
  ((claim_C2_limit_exceeded_halts latin1Decoder cfgLimit10
      (List.replicate 7 0) rfl (by decide) (by decide)).1).1

/-- C3: when both a declared length and a limit are configured and the
length exceeds the limit, `readStream` schedules the 413 carrying
(expected, limit) while still synchronous: no listeners were attached,
no bytes counted, every stream signal is ignored, and the scheduled
tick delivers exactly that error. -/
theorem claim_C3_fastpath_rejection {σ : Type} (registry : String → Bool)
    (dec : DecoderImpl σ) (cfg : Cfg) {l n : ℤ}
    (hl : cfg.limit = some l) (hn : cfg.length = some n) (hgt : n > l) :
    (runSetup registry dec cfg).attached = false ∧
    (runSetup registry dec cfg).received = 0 ∧
    (runSetup registry dec cfg).delivered = [] ∧
    (runSetup registry dec cfg).pending =
      [Outcome.err (ReadErr.entityTooLargeFast n l)] ∧
    (∀ tr : List Ev, (∀ ev ∈ tr, ev.isStreamSignal = true) →
      run registry dec cfg tr = runSetup registry dec cfg) ∧
    (step dec cfg (runSetup registry dec cfg) Ev.tick).delivered =
      [(false, Outcome.err (ReadErr.entityTooLargeFast n l))] := by
  have hset := runSetup_fastpath registry dec cfg hl hn hgt (σ := σ)
  refine ⟨by rw [hset]; rfl, by rw [hset]; rfl, by rw [hset]; rfl,
    by rw [hset], ?_, ?_⟩
  · intro tr htr
    unfold run
    apply foldl_detached
    · rw [hset]
      rfl
    · exact htr
  · rw [hset]
    rw [step_tick_single dec cfg _ (Outcome.err (ReadErr.entityTooLargeFast n l)) rfl]
    rw [invokeCallback_delivered]
    rfl

/-- C3 witness: length 20 over limit 10. -/
theorem claim_C3_fastpath_rejection_witness :
    (runSetup sampleRegistry latin1Decoder cfgFast).attached = false ∧
    (runSetup sampleRegistry latin1Decoder cfgFast).received = 0 ∧
    (runSetup sampleRegistry latin1Decoder cfgFast).delivered = [] ∧
    (runSetup sampleRegistry latin1Decoder cfgFast).pending =
      [Outcome.err (ReadErr.entityTooLargeFast 20 10)] ∧
    (∀ tr : List Ev, (∀ ev ∈ tr, ev.isStreamSignal = true) →
      run sampleRegistry latin1Decoder cfgFast tr =
        runSetup sampleRegistry latin1Decoder cfgFast) ∧
    (step latin1Decoder cfgFast
        (runSetup sampleRegistry latin1Decoder cfgFast) Ev.tick).delivered =
      [(false, Outcome.err (ReadErr.entityTooLargeFast 20 10))] :=
  claim_C3_fastpath_rejection sampleRegistry latin1Decoder cfgFast
    rfl rfl (by decide)

/-- C4: on end of stream, a declared length different from the counter
fails with `SizeMismatch` reporting the exact expected and received
values; otherwise the read succeeds — with the accumulated text plus
the decoder flush when a decoder is in use, or with the concatenation
of the raw chunks when no charset was requested. -/
theorem claim_C4_end_of_stream {σ : Type} (dec : DecoderImpl σ)
    (cfg : Cfg) {s : RState σ} (h : Reading s) :
    (∀ n : ℤ, cfg.length = some n → (s.received : ℤ) ≠ n →
      (step dec cfg s Ev.endOfStream).delivered =
        [(false, Outcome.err (ReadErr.sizeMismatch n s.received))]) ∧
    (cfg.length = none ∨ cfg.length = some ((s.received : ℤ)) →
      (∀ (st : σ) (acc : String), s.buffer = Buf.text st acc →
        (step dec cfg s Ev.endOfStream).delivered =
          [(false, Outcome.ok (Payload.text (acc ++ dec.flushEnd st)))]) ∧
      (∀ chunks : List Chunk, s.buffer = Buf.raw chunks →
        (step dec cfg s Ev.endOfStream).delivered =
          [(false, Outcome.ok (Payload.bytes chunks.flatten))])) := by
  refine ⟨?_, ?_⟩
  · intro n hl hne
    exact (reading_end_mismatch dec cfg h hl hne).2.2
  · intro hlen
    refine ⟨?_, ?_⟩
    · intro st acc hb
      exact (reading_end_text dec cfg h hb hlen).2.2
    · intro chunks hb
      exact (reading_end_raw dec cfg h hb hlen).2.2

/-- C4 witness: declared length 10 but only 7 bytes arrived — ending
the stream delivers `SizeMismatch (expected 10, received 7)`. -/
theorem claim_C4_end_of_stream_witness :
    (step latin1Decoder cfgLen10
        (run sampleRegistry latin1Decoder cfgLen10
          [Ev.data (List.replicate 7 0)])
        Ev.endOfStream).delivered =
      [(false, Outcome.err (ReadErr.sizeMismatch 10
        (run sampleRegistry latin1Decoder cfgLen10
          [Ev.data (List.replicate 7 0)]).received))] :=
  (claim_C4_end_of_stream latin1Decoder cfgLen10 (by decide)).1
    10 rfl (by decide)

/-- Unfolding of `contentstream` (the `let encoding := …` zeta-reduced). -/
theorem contentstream_def (ceHeader clHeader : Option String)
    (inflate : Bool) :
    contentstream ceHeader clHeader inflate =
      (if inflate = false ∧ contentEncodingToken ceHeader ≠ "identity" then
        Except.error (CsErr.notAllowed (contentEncodingToken ceHeader))
      else if contentEncodingToken ceHeader = "deflate" then
        Except.ok ContentStream.inflateStream
      else if contentEncodingToken ceHeader = "gzip" then
        Except.ok ContentStream.gunzipStream
      else if contentEncodingToken ceHeader = "identity" then
        Except.ok (ContentStream.identityStream clHeader)
      else Except.error (CsErr.unrecognized (contentEncodingToken ceHeader))) :=
  rfl

/-- C5: the transport decompression selector.  The token defaults to
"identity" when the header is absent; with inflate disallowed any
non-identity token is rejected; "identity" returns the raw stream
annotated with the declared length; "gzip"/"deflate" return the
matching zlib transform with no length annotation (so the downstream
length check is skipped); any other token is rejected reporting the
token. -/
theorem claim_C5_contentstream_selector (ceHeader clHeader : Option String)
    (inflate : Bool) :
    contentEncodingToken none = "identity" ∧
    (inflate = false → contentEncodingToken ceHeader ≠ "identity" →
      contentstream ceHeader clHeader inflate =
        Except.error (CsErr.notAllowed (contentEncodingToken ceHeader))) ∧
    (contentEncodingToken ceHeader = "identity" →
      contentstream ceHeader clHeader inflate =
        Except.ok (ContentStream.identityStream clHeader) ∧
      (ContentStream.identityStream clHeader).declaredLength = clHeader) ∧
    (contentEncodingToken ceHeader = "gzip" →
      contentstream ceHeader clHeader true =
        Except.ok ContentStream.gunzipStream ∧
      ContentStream.gunzipStream.declaredLength = none) ∧
    (contentEncodingToken ceHeader = "deflate" →
      contentstream ceHeader clHeader true =
        Except.ok ContentStream.inflateStream ∧
      ContentStream.inflateStream.declaredLength = none) ∧
    (contentEncodingToken ceHeader ≠ "identity" →
      contentEncodingToken ceHeader ≠ "gzip" →
      contentEncodingToken ceHeader ≠ "deflate" →
      contentstream ceHeader clHeader true =
        Except.error (CsErr.unrecognized (contentEncodingToken ceHeader)) ∧
      (CsErr.unrecognized (contentEncodingToken ceHeader)).encoding =
        contentEncodingToken ceHeader) := by
  refine ⟨by decide, ?_, ?_, ?_, ?_, ?_⟩
  · intro hi ht
    rw [contentstream_def, if_pos ⟨hi, ht⟩]
  · intro ht
    rw [contentstream_def, ht]
    rw [if_neg (by simp), if_neg (by decide), if_neg (by decide), if_pos rfl]
    exact ⟨rfl, rfl⟩
  · intro ht
    rw [contentstream_def, ht]
    rw [if_neg (by simp), if_neg (by decide), if_pos rfl]
    exact ⟨rfl, rfl⟩
  · intro ht
    rw [contentstream_def, ht]
    rw [if_neg (by simp), if_pos rfl]
    exact ⟨rfl, rfl⟩
  · intro h1 h2 h3
    rw [contentstream_def]
    rw [if_neg (by simp), if_neg h3, if_neg h2, if_neg h1]
    exact ⟨rfl, rfl⟩

/-- C5 witness: content-encoding "br" with inflate allowed is rejected
as an unrecognized token (end-to-end scenario 3). -/
theorem claim_C5_contentstream_selector_witness :
    contentstream (some "br") (some "5") true =
      Except.error (CsErr.unrecognized (contentEncodingToken (some "br"))) ∧
    (CsErr.unrecognized (contentEncodingToken (some "br"))).encoding =
      contentEncodingToken (some "br") :=
  (claim_C5_contentstream_selector (some "br") (some "5") true).2.2.2.2.2
    (by decide) (by decide) (by decide)

/-- C6: failures are delivered asynchronously.  The synchronous
section of `readStream` never invokes the callback; when it has
already determined the outcome it schedules exactly one callback, and
the next scheduler tick delivers exactly that outcome, once — further
events never deliver it again. -/
theorem claim_C6_async_failure_delivery {σ : Type}
    (registry : String → Bool) (dec : DecoderImpl σ) (cfg : Cfg) :
    (runSetup registry dec cfg).delivered = [] ∧
    ((runSetup registry dec cfg).complete = true →
      ∃ out, (runSetup registry dec cfg).pending = [out]) ∧
    (∀ out : Outcome, (runSetup registry dec cfg).pending = [out] →
      (step dec cfg (runSetup registry dec cfg) Ev.tick).delivered =
        [(false, out)] ∧
      ∀ ev : Ev,
        (step dec cfg
          (step dec cfg (runSetup registry dec cfg) Ev.tick) ev).delivered =
          [(false, out)]) := by
  refine ⟨runSetup_delivered_nil registry dec cfg, ?_, ?_⟩
  · intro hcomp
    rcases runSetup_dichotomy registry dec cfg with hr | ⟨out, heq⟩
    · rw [hr.1] at hcomp
      cases hcomp
    · exact ⟨out, by rw [heq]⟩
  · intro out hp
    have hcomp : (runSetup registry dec cfg).complete = true := by
      cases hcc : (runSetup registry dec cfg).complete
      · obtain ⟨_, hp2⟩ := (atMostOnce_runSetup registry dec cfg).2 hcc
        rw [hp2] at hp
        cases hp
      · rfl
    have hdel1 : DeliveredOne
        (step dec cfg (runSetup registry dec cfg) Ev.tick) out := by
      rw [step_tick_single dec cfg _ out hp]
      refine ⟨?_, ?_, ?_⟩
      · rw [invokeCallback_complete]
        exact hcomp
      · rw [invokeCallback_pending]
      · rw [invokeCallback_delivered]
        dsimp only
        rw [runSetup_delivered_nil]
        rfl
    exact ⟨hdel1.2.2, fun ev => (deliveredOne_step dec cfg hdel1 ev).2.2⟩

/-- C6 witness: the fast-path rejection (detected synchronously) is
delivered on the next tick and not re-delivered by a later event. -/
theorem claim_C6_async_failure_delivery_witness :
    (step latin1Decoder cfgFast
        (runSetup sampleRegistry latin1Decoder cfgFast) Ev.tick).delivered =
      [(false, Outcome.err (ReadErr.entityTooLargeFast 20 10))] ∧
    (step latin1Decoder cfgFast
        (step latin1Decoder cfgFast
          (runSetup sampleRegistry latin1Decoder cfgFast) Ev.tick)
        Ev.endOfStream).delivered =
      [(false, Outcome.err (ReadErr.entityTooLargeFast 20 10))] := by
  obtain ⟨h1, h2⟩ :=
    (claim_C6_async_failure_delivery sampleRegistry latin1Decoder
        cfgFast).2.2
      (Outcome.err (ReadErr.entityTooLargeFast 20 10)) (by decide)
  exact ⟨h1, h2 Ev.endOfStream⟩

/-- C7: an abort signal on a read that is not yet terminal delivers —
immediately, whatever the byte count — the single failure
`RequestAborted` carrying the declared length and the bytes received
so far; no success outcome is ever delivered on abort. -/
theorem claim_C7_abort_terminates {σ : Type} (dec : DecoderImpl σ)
    (cfg : Cfg) {s : RState σ} (h : Reading s) :
    (step dec cfg s Ev.aborted).delivered =
      [(false, Outcome.err (ReadErr.requestAborted cfg.length s.received))] ∧
    (step dec cfg s Ev.aborted).complete = true ∧
    ∀ (b : Bool) (p : Payload),
      (b, Outcome.ok p) ∉ (step dec cfg s Ev.aborted).delivered := by
  have hdel := reading_aborted dec cfg h
  refine ⟨hdel.2.2, hdel.1, ?_⟩
  intro b p hmem
  rw [hdel.2.2, List.mem_singleton] at hmem
  simp at hmem

/-- C7 witness: abort after three bytes were accumulated. -/
theorem claim_C7_abort_terminates_witness :
    (step latin1Decoder cfgPlain
        (run sampleRegistry latin1Decoder cfgPlain [Ev.data [1, 2, 3]])
        Ev.aborted).delivered =
      [(false, Outcome.err (ReadErr.requestAborted none
        (run sampleRegistry latin1Decoder cfgPlain
          [Ev.data [1, 2, 3]]).received))] :=
  (claim_C7_abort_terminates latin1Decoder cfgPlain (by decide)).1

/-- C9: an unsupported requested charset fails the read before any
stream consumption.  With a `verify` callback the orchestrator rejects
it up front (pre-check); otherwise `getDecoder` throws inside the
still-synchronous section: no listeners are ever attached, no byte is
counted, all stream signals are ignored, the scheduled failure is the
415 `encoding.unsupported`, and the orchestrator classifies it as
`charset.unsupported` (415). -/
theorem claim_C9_charset_unsupported {σ : Type}
    (registry : String → Bool) (dec : DecoderImpl σ) (cfg : Cfg)
    {e : String} (henc : cfg.encoding = some e) (hne : ¬ e = "")
    (hreg : registry e = false)
    (hfast : ∀ l n : ℤ, cfg.limit = some l → cfg.length = some n → ¬ n > l)
    (hse : cfg.streamEncodingSet = false) :
    charsetPrecheckRejects registry true (some e) = true ∧
    (runSetup registry dec cfg).attached = false ∧
    (runSetup registry dec cfg).received = 0 ∧
    (runSetup registry dec cfg).delivered = [] ∧
    (runSetup registry dec cfg).pending =
      [Outcome.err (ReadErr.encodingUnsupported e)] ∧
    (∀ tr : List Ev, (∀ ev ∈ tr, ev.isStreamSignal = true) →
      run registry dec cfg tr = runSetup registry dec cfg) ∧
    classifyGetBodyError (some e) (ReadErr.encodingUnsupported e) =
      OrchErr.charsetUnsupported (some (jsToLower e)) ∧
    (OrchErr.charsetUnsupported (some (jsToLower e))).status = 415 := by
  have hset := runSetup_decoder_unsupported registry dec cfg
    hfast hse henc hne hreg (σ := σ)
  refine ⟨?_, by rw [hset]; rfl, by rw [hset]; rfl, by rw [hset]; rfl,
    by rw [hset], ?_, ?_, rfl⟩
  · simp [charsetPrecheckRejects, hreg]
  · intro tr htr
    unfold run
    apply foldl_detached
    · rw [hset]
      rfl
    · exact htr
  · simp [classifyGetBodyError, ReadErr.errType]

/-- C9 witness: charset "utf-7" (end-to-end scenario 5): the failure is
scheduled with no listeners attached and zero bytes read. -/
theorem claim_C9_charset_unsupported_witness :
    (runSetup sampleRegistry latin1Decoder cfgUtf7).pending =
      [Outcome.err (ReadErr.encodingUnsupported "utf-7")] :=
  (claim_C9_charset_unsupported sampleRegistry latin1Decoder cfgUtf7
    rfl (by decide) rfl (by intro l n hl _; cases hl) rfl).2.2.2.2.1

/-- C10 counterexample: the claim says the error delivered after the
request finishes is 400-class, but for the accumulator developer
error of `stream encoding should not be set` the classified
error keeps status 500. -/
theorem claim_C10_counterexample :
    (orchOnReqFinished
      (orchOnBodyError none ReadErr.streamEncodingSet orchInit)).delivered =
      [OrchErr.wrapped ReadErr.streamEncodingSet] ∧
    (OrchErr.wrapped ReadErr.streamEncodingSet).status = 500 ∧
    ¬ (OrchErr.wrapped ReadErr.streamEncodingSet).status < 500 := by
  decide

/-- C10 (amended): on any accumulator failure the orchestrator calls
`next` with nothing yet, resumes the content stream, registers the
classified error with `onFinished`, and only the request-finished
event delivers it; the classified error is 400-class for every failure
except the internal 500 `stream.encoding.set` developer error. -/
theorem claim_C10_error_deferred_until_finished
    (encoding : Option String) (e : ReadErr) :
    (orchOnBodyError encoding e orchInit).delivered = [] ∧
    (orchOnBodyError encoding e orchInit).resumed = true ∧
    (orchOnBodyError encoding e orchInit).finishedCallback =
      some (classifyGetBodyError encoding e) ∧
    (orchOnReqFinished (orchOnBodyError encoding e orchInit)).delivered =
      [classifyGetBodyError encoding e] ∧
    (e ≠ ReadErr.streamEncodingSet →
      400 ≤ (classifyGetBodyError encoding e).status ∧
      (classifyGetBodyError encoding e).status < 500) := by
  refine ⟨rfl, rfl, rfl, ?_, ?_⟩
  · simp [orchOnReqFinished, orchOnBodyError, orchInit]
  · intro hne
    cases e
    case streamEncodingSet => exact absurd rfl hne
    all_goals
      simp [classifyGetBodyError, ReadErr.errType, OrchErr.status,
        ReadErr.status]

/-- C10 witness: a mid-read 413 is classified 4xx (and delivered only
at request-finish per the main theorem). -/
theorem claim_C10_error_deferred_until_finished_witness :
    400 ≤ (classifyGetBodyError (some "utf-8")
      (ReadErr.entityTooLarge 10 15)).status ∧
    (classifyGetBodyError (some "utf-8")
      (ReadErr.entityTooLarge 10 15)).status < 500 :=
  (claim_C10_error_deferred_until_finished (some "utf-8")
    (ReadErr.entityTooLarge 10 15)).2.2.2.2 (by decide)

/-- C8 counterexample: the claim as stated fails on the code twice.
`parse("abc")` yields NaN, not null (the source lacks the `isNaN`
guard of upstream bytes); and "b" is not in the unit set of the
regex, so
`parse("-1.5b")` goes through the `parseInt` fallback and returns -1,
not `floor(-1.5 × 1) = -2`. -/
theorem claim_C8_counterexample :
    parse (JsVal.str "abc") = ParseResult.num JsNum.nan ∧
    ParseResult.num JsNum.nan ≠ ParseResult.null ∧
    parse (JsVal.str "-1.5b") = ParseResult.num (JsNum.finite (-1)) ∧
    (⌊(-(3 : ℚ)/2) * 1⌋ : ℤ) = -2 := by
  refine ⟨?_, by decide, ?_, by norm_num⟩
  · simp [parse, parseRegExpExec, takeDigits, isDigitChar, digitsVal,
      matchUnitSuffix, unitMap, jsMul, mathFloor, jsParseInt]
  · simp [parse, parseRegExpExec, takeDigits, isDigitChar, digitsVal,
      matchUnitSuffix, unitMap, jsMul, mathFloor, jsParseInt]
    norm_num

/-- C8 (amended): the size unit parser matches an optional sign, a
decimal magnitude and a unit from kb/mb/gb/tb (case-insensitive) and
returns floor(magnitude × multiplier) with multipliers 2^10…2^40; any
other string falls back to `parseInt` leading-integer-as-bytes
(so a "b" suffix truncates toward zero); strings with no leading
integer yield NaN (not null); null is returned only for
non-number/non-string input; a non-NaN number is returned unchanged. -/
theorem claim_C8_size_unit_parsing :
    (∀ (s : String) (q : ℚ) (u : String) (m : ℚ),
      parseRegExpExec s = some (q, u) → unitMap u = some m →
      parse (JsVal.str s) =
        ParseResult.num (JsNum.finite ((⌊m * q⌋ : ℤ) : ℚ))) ∧
    parse (JsVal.str "1mb") = ParseResult.num (JsNum.finite 1048576) ∧
    parse (JsVal.str "2kb") = ParseResult.num (JsNum.finite 2048) ∧
    parse (JsVal.str "10abc") = ParseResult.num (JsNum.finite 10) ∧
    parse (JsVal.str "abc") = ParseResult.num JsNum.nan ∧
    parse (JsVal.str "") = ParseResult.num JsNum.nan ∧
    parse (JsVal.str "-1.5b") = ParseResult.num (JsNum.finite (-1)) ∧
    parse JsVal.other = ParseResult.null ∧
    parse (JsVal.num JsNum.nan) = ParseResult.null ∧
    (∀ q : ℚ, parse (JsVal.num (JsNum.finite q)) =
      ParseResult.num (JsNum.finite q)) ∧
    (∀ s : String, parse (JsVal.str s) ≠ ParseResult.null) := by
  refine ⟨?_,
    by simp [parse, parseRegExpExec, takeDigits, isDigitChar, digitsVal,
        matchUnitSuffix, unitMap, jsMul, mathFloor, jsParseInt]; try norm_num,
    by simp [parse, parseRegExpExec, takeDigits, isDigitChar, digitsVal,
        matchUnitSuffix, unitMap, jsMul, mathFloor, jsParseInt]; try norm_num,
    by simp [parse, parseRegExpExec, takeDigits, isDigitChar, digitsVal,
        matchUnitSuffix, unitMap, jsMul, mathFloor, jsParseInt]; try norm_num,
    by simp [parse, parseRegExpExec, takeDigits, isDigitChar, digitsVal,
        matchUnitSuffix, unitMap, jsMul, mathFloor, jsParseInt],
    by simp [parse, parseRegExpExec, takeDigits, isDigitChar, digitsVal,
        matchUnitSuffix, unitMap, jsMul, mathFloor, jsParseInt],
    by simp [parse, parseRegExpExec, takeDigits, isDigitChar, digitsVal,
        matchUnitSuffix, unitMap, jsMul, mathFloor, jsParseInt]; try norm_num,
    rfl, rfl, fun q => rfl, ?_⟩
  · intro s q u m hexec hm
    simp [parse, hexec, jsMul, hm, mathFloor]
  · intro s
    rcases hexec : parseRegExpExec s with _ | ⟨q, u⟩
    · cases hint : jsParseInt s <;>
        simp [parse, hexec, hint, jsMul, mathFloor]
    · cases hm : unitMap u <;>
        simp [parse, hexec, hm, jsMul, mathFloor]

/-- C8 witness: `parse("1.5KB")` goes through the regex branch with
multiplier 1024 and magnitude 3/2. -/
theorem claim_C8_size_unit_parsing_witness :
    parse (JsVal.str "1.5KB") =
      ParseResult.num (JsNum.finite ((⌊(1024 : ℚ) * (3/2)⌋ : ℤ) : ℚ)) :=
  claim_C8_size_unit_parsing.1 "1.5KB" (3/2) "kb" 1024
    (by
      simp [parseRegExpExec, takeDigits, isDigitChar, digitsVal, matchUnitSuffix]
      norm_num)
    (by decide)

end BodyParser
